import Mathlib

/-! Shallow embedding of the auto-registration face-recognition service in
`src/main.py`.  The persistent SQLite state is modelled as an explicit `DB`
value threaded through the operations; the external DeepFace capability is
modelled by oracles (a `cmp` function standing for `DeepFace.verify` on the
probe against a stored reference image, and an `AnalysisResult` value standing
for the result of `DeepFace.analyze` on the probe); fallible storage steps are
modelled by explicit Boolean failure flags whose rollback semantics mirror
`conn.rollback()`.  SQL `REAL` columns are modelled exactly with `ℚ`;
timestamps are abstract `Nat` ticks. -/

namespace AutoFace

/-- Row of the `auto_persons` table (see `init_database` in `src/main.py`).
`total_detections` has SQL default 1 and `confidence_avg` default 0. -/
structure Person where
  id : Nat
  person_code : String
  first_seen : Nat
  last_seen : Nat
  total_detections : Nat
  confidence_avg : ℚ
  age_estimate : Option Int
  gender_estimate : String
  main_image_path : String
deriving DecidableEq

/-- Row of the `detections` table.  Rows are append-only; the list order of
`DB.detections` is the rowid (insertion) order, which is the order in which
an un-ordered `SELECT ... fetchone()` returns rows. -/
structure Detection where
  person_id : Nat
  detection_time : Nat
  confidence : ℚ
  image_hash : String
  age_detected : Option Int
  gender_detected : String
  emotion_detected : String
deriving DecidableEq

/-- The whole persistent store.  `next_person_id` models the SQLite
AUTOINCREMENT counter of `auto_persons` (`cursor.lastrowid`). -/
structure DB where
  persons : List Person
  detections : List Detection
  next_person_id : Nat
deriving DecidableEq

/-- Result of one `DeepFace.verify` call: `{ verified : bool, distance : real }`. -/
structure VerifyResult where
  verified : Bool
  distance : ℚ
deriving DecidableEq

/-- The `best_match` dictionary built inside `find_existing_person`. -/
structure MatchInfo where
  person_id : Nat
  person_code : String
  confidence : ℚ
deriving DecidableEq

/-- The fields of one `DeepFace.analyze` face dictionary that the decision
logic reads (`age`, `dominant_gender`, `dominant_emotion`), already coerced
to plain values as the Python code does with `.item()` / `int` / `str`. -/
structure FaceData where
  age : Option Int
  dominant_gender : String
  dominant_emotion : String
deriving DecidableEq

/-- Result of the `DeepFace.analyze` call in `check_person`: the call can
raise (caught and mapped to a no-face answer), return a list of face
dictionaries, or return a single dictionary. -/
inductive AnalysisResult where
  | failure : AnalysisResult
  | faces : List FaceData → AnalysisResult
  | single : FaceData → AnalysisResult
deriving DecidableEq

/-- Return value of `find_existing_person`, mirroring the four distinct
dictionaries the Python function can return: `found = True` with match data;
`found = False` with a `highest_similarity` field; the bare `found = False`
for an empty gallery; and `found = False` with an `error` field when a
storage exception was caught.  The caller only ever reads the `found` key. -/
inductive FindResult where
  | found : MatchInfo → FindResult
  | notFound : ℚ → FindResult
  | noPersons : FindResult
  | errorNotFound : FindResult
deriving DecidableEq

/-- The `person_id` / `person_code` pair returned by `register_new_person`. -/
structure RegInfo where
  person_id : Nat
  person_code : String
deriving DecidableEq

/-- The discriminated outcome of the `/check_person` endpoint, carrying the
response fields the claims are about.  `http_error` stands for an
`HTTPException` (status 500) reaching the caller. -/
inductive Outcome where
  | exact_duplicate : Nat → Outcome
  | no_face : Outcome
  | multiple_faces : Nat → Outcome
  | person_recognized : Nat → String → ℚ → Nat → ℚ → Outcome
  | new_person_registered : Nat → String → Outcome
  | http_error : Outcome
deriving DecidableEq

/-- The `seen_before` field of the JSON response for each outcome. -/
def seenBeforeFlag : Outcome → Bool
  | Outcome.exact_duplicate _ => true
  | Outcome.no_face => false
  | Outcome.multiple_faces _ => false
  | Outcome.person_recognized _ _ _ _ _ => true
  | Outcome.new_person_registered _ _ => false
  | Outcome.http_error => false

/-- Confidence derived from one comparison: `confidence = (1 - distance) * 100`. -/
def confOf (r : VerifyResult) : ℚ :=
  (1 - r.distance) * 100

/-- The comparison loop of `find_existing_person`.  `best` and `highest`
are the `best_match` / `highest_confidence` accumulators.  A `none` answer
from `cmp` models a missing reference image (`os.path.exists` false) or a
`DeepFace.verify` exception: the candidate is skipped.  Faithful to the
Python loop, `highest_confidence` is raised before the threshold test, and
only a strictly higher verified confidence is considered at all. -/
def scanPersons (cmp : Person → Option VerifyResult) (threshold : ℚ) :
    List Person → Option MatchInfo → ℚ → Option MatchInfo × ℚ
  | [], best, highest => (best, highest)
  | p :: rest, best, highest =>
      match cmp p with
      | none => scanPersons cmp threshold rest best highest
      | some r =>
          if r.verified = true ∧ highest < confOf r then
            if threshold * 100 ≤ confOf r then
              scanPersons cmp threshold rest
                (some { person_id := p.id, person_code := p.person_code,
                        confidence := confOf r }) (confOf r)
            else
              scanPersons cmp threshold rest best (confOf r)
          else
            scanPersons cmp threshold rest best highest

/-- `find_existing_person` from `src/main.py`.  `storageOk = false` models a
storage exception escaping the `SELECT` over `auto_persons`: the function
catches it and returns a `found = False` dictionary with an `error` field. -/
def find_existing_person (persons : List Person) (cmp : Person → Option VerifyResult)
    (threshold : ℚ) (storageOk : Bool) : FindResult :=
  if storageOk = false then
    FindResult.errorNotFound
  else if persons.isEmpty then
    FindResult.noPersons
  else
    match scanPersons cmp threshold persons none 0 with
    | (some m, _) => FindResult.found m
    | (none, highest) => FindResult.notFound highest

/-- Zero-padded `{:04d}` formatting of the code suffix. -/
def pad4 (n : Nat) : String :=
  let s := toString n
  String.mk (List.replicate (4 - s.length) '0') ++ s

/-- `generate_person_code`: a pure function of the second-granularity
timestamp string; `hh` models the Python `hash` builtin (fixed within one
interpreter run), and `% 10000` is the Euclidean remainder exactly as in
Python. -/
def generate_person_code (hh : String → Int) (timestamp : String) : String :=
  "PERSON_" ++ timestamp ++ "_" ++ pad4 (hh timestamp % 10000).toNat

/-- One row inserted into `detections`; both `INSERT INTO detections`
statements in `src/main.py` have this shape. -/
def mkDetection (person_id : Nat) (confidence : ℚ) (image_hash : String)
    (a : FaceData) (now : Nat) : Detection :=
  { person_id := person_id, detection_time := now, confidence := confidence,
    image_hash := image_hash, age_detected := a.age,
    gender_detected := a.dominant_gender, emotion_detected := a.dominant_emotion }

/-- The person row inserted by `register_new_person`: the id assigned by
AUTOINCREMENT, the generated code, the SQL defaults `total_detections = 1`,
`confidence_avg = 0` and both timestamps set to now, the age and gender
snapshot from the analysis, and the path of the copied reference image. -/
def mkNewPerson (id : Nat) (person_code : String) (a : FaceData) (now : Nat) : Person :=
  { id := id, person_code := person_code, first_seen := now, last_seen := now,
    total_detections := 1, confidence_avg := 0, age_estimate := a.age,
    gender_estimate := a.dominant_gender,
    main_image_path := "auto_face_database/" ++ person_code }

/-- `register_new_person` from `src/main.py`.  Both inserts run in one
transaction: only `conn.commit()` publishes them, and on any exception
`conn.rollback()` leaves the store unchanged and the exception is re-raised
(modelled as `Except.error` paired with the unchanged `DB`).
`failPersonInsert` / `failDetectionInsert` model storage errors at the two
insert statements; independently, the first insert raises an IntegrityError
when `person_code` violates the UNIQUE constraint.  The new person row takes
the SQL defaults `total_detections = 1`, `confidence_avg = 0`,
`first_seen = last_seen = CURRENT_TIMESTAMP`; its id is `cursor.lastrowid`. -/
def register_new_person (db : DB) (hh : String → Int) (timestamp : String)
    (a : FaceData) (image_hash : String) (now : Nat)
    (failPersonInsert failDetectionInsert : Bool) : DB × Except String RegInfo :=
  let person_code := generate_person_code hh timestamp
  if failPersonInsert then
    (db, Except.error "storage error")
  else if db.persons.any (fun p => p.person_code == person_code) then
    (db, Except.error "UNIQUE constraint failed: auto_persons.person_code")
  else if failDetectionInsert then
    (db, Except.error "storage error")
  else
    let person : Person := mkNewPerson db.next_person_id person_code a now
    ({ persons := db.persons ++ [person],
       detections := db.detections ++ [mkDetection db.next_person_id 100 image_hash a now],
       next_person_id := db.next_person_id + 1 },
     Except.ok { person_id := db.next_person_id, person_code := person_code })

/-- The new values the `UPDATE auto_persons SET ...` statement assigns to the
matched row.  Per SQL semantics every right-hand side is evaluated on the
OLD row, so the running average divides by the pre-increment
`total_detections` and weights the old average by `total_detections - 1`. -/
def updatePersonRow (p : Person) (confidence : ℚ) (now : Nat) : Person :=
  { p with
    last_seen := now,
    total_detections := p.total_detections + 1,
    confidence_avg :=
      (p.confidence_avg * ((p.total_detections : ℚ) - 1) + confidence)
        / (p.total_detections : ℚ) }

/-- `update_existing_person` from `src/main.py`.  The UPDATE of the person
row and the INSERT of the detection row form one transaction; on failure
(`fail = true`) the transaction is rolled back and — unlike
`register_new_person` — the exception is swallowed (only printed), so the
caller cannot observe it. -/
def update_existing_person (db : DB) (person_id : Nat) (confidence : ℚ)
    (a : FaceData) (image_hash : String) (now : Nat) (fail : Bool) : DB :=
  if fail then
    db
  else
    { db with
      persons := db.persons.map
        (fun p => if p.id == person_id then updatePersonRow p confidence now else p),
      detections := db.detections ++ [mkDetection person_id confidence image_hash a now] }

/-- The tail of `check_person` once a single face dictionary has been
extracted: gallery scan, then either the recognized-person update (with a
read-back of the updated row for the response) or the new-person
registration.  A `fetchone()` returning no row would make the Python code
subscript `None` and raise, surfacing as a 500 — modelled by `http_error`.
Any result of the scan other than `found` (including the absorbed storage
error) takes the registration branch, because the code only tests the
`found` key. -/
def resolve_with_face (db : DB) (image_hash : String) (threshold : ℚ)
    (a : FaceData) (cmp : Person → Option VerifyResult)
    (storageOk updateFail failPersonInsert failDetectionInsert : Bool)
    (hh : String → Int) (timestamp : String) (now : Nat) : Outcome × DB :=
  match find_existing_person db.persons cmp threshold storageOk with
  | FindResult.found m =>
      let db2 := update_existing_person db m.person_id m.confidence a image_hash now updateFail
      match db2.persons.find? (fun p => p.id == m.person_id) with
      | some p =>
          (Outcome.person_recognized m.person_id p.person_code m.confidence
            p.total_detections p.confidence_avg, db2)
      | none => (Outcome.http_error, db2)
  | _ =>
      match register_new_person db hh timestamp a image_hash now
          failPersonInsert failDetectionInsert with
      | (db2, Except.ok info) =>
          (Outcome.new_person_registered info.person_id info.person_code, db2)
      | (db2, Except.error _) => (Outcome.http_error, db2)

/-- The `/check_person` endpoint pipeline from `src/main.py`: exact-duplicate
check on the fingerprint first (a `fetchone()` over `detections`, i.e. the
first stored row in insertion order), then face analysis (an exception, an
empty list and a list of two or more faces all terminate without touching
the gallery), then gallery scan and the recognized / new-person branch. -/
def check_person (db : DB) (image_hash : String) (threshold : ℚ)
    (analysis : AnalysisResult) (cmp : Person → Option VerifyResult)
    (storageOk updateFail failPersonInsert failDetectionInsert : Bool)
    (hh : String → Int) (timestamp : String) (now : Nat) : Outcome × DB :=
  match db.detections.find? (fun d => d.image_hash == image_hash) with
  | some d => (Outcome.exact_duplicate d.person_id, db)
  | none =>
      match analysis with
      | AnalysisResult.failure => (Outcome.no_face, db)
      | AnalysisResult.single a =>
          resolve_with_face db image_hash threshold a cmp storageOk updateFail
            failPersonInsert failDetectionInsert hh timestamp now
      | AnalysisResult.faces [] => (Outcome.no_face, db)
      | AnalysisResult.faces [a] =>
          resolve_with_face db image_hash threshold a cmp storageOk updateFail
            failPersonInsert failDetectionInsert hh timestamp now
      | AnalysisResult.faces l => (Outcome.multiple_faces l.length, db)

/-- The store as created by `init_database`: empty tables, first rowid 1. -/
def initialDB : DB :=
  { persons := [], detections := [], next_person_id := 1 }

/-! Concrete fixtures used by witnesses and counterexamples. -/

/-- A cleaned analysis dictionary for a single detected face. -/
def faceA : FaceData :=
  { age := some 30, dominant_gender := "Man", dominant_emotion := "happy" }

/-- Comparison oracle under which every candidate is skipped (missing
reference image or a per-pair comparison error). -/
def cmpNone : Person → Option VerifyResult := fun _ => none

/-- A fixed value of the Python `hash` builtin oracle. -/
def hashZero : String → Int := fun _ => 0

/-- Store holding one registered person (code derived from timestamp `t0`,
registered at tick 1 from an image with fingerprint `hA`). -/
def db1 : DB := (register_new_person initialDB hashZero "t0" faceA "hA" 1 false false).1

/-- The single person row of `db1`. -/
def person1 : Person :=
  { id := 1, person_code := generate_person_code hashZero "t0", first_seen := 1,
    last_seen := 1, total_detections := 1, confidence_avg := 0,
    age_estimate := faceA.age, gender_estimate := faceA.dominant_gender,
    main_image_path := "auto_face_database/" ++ generate_person_code hashZero "t0" }

/-- The detection row of `db1`. -/
def detection1 : Detection := mkDetection 1 100 "hA" faceA 1

/-- A comparison oracle reporting a verified match at distance `1/5`
(confidence 80) for every candidate. -/
def cmpGood : Person → Option VerifyResult :=
  fun _ => some { verified := true, distance := 1/5 }

/-- A comparison oracle reporting a verified match at the maximal distance 1
(confidence 0) for every candidate. -/
def cmpWorst : Person → Option VerifyResult :=
  fun _ => some { verified := true, distance := 1 }

/-- A gallery person used by the C5 counterexample. -/
def personX : Person :=
  { id := 7, person_code := "PX", first_seen := 0, last_seen := 0, total_detections := 1,
    confidence_avg := 0, age_estimate := none, gender_estimate := "unknown",
    main_image_path := "px" }

/-- Interleaved execution of two `check_person` requests for two different
images of the same previously-unseen face: both requests pass the duplicate
check and run their gallery scan against the initial store before either
registration commits, then each commits in turn — a schedule the code does
nothing to prevent, as it takes no lock and never re-checks the gallery
before commit. -/
def raceNewFace (db : DB) (cmp1 cmp2 : Person → Option VerifyResult) (threshold : ℚ)
    (a1 a2 : FaceData) (h1 h2 : String) (hh : String → Int) (t1 t2 : String)
    (n1 n2 : Nat) : DB :=
  let m1 := find_existing_person db.persons cmp1 threshold true
  let m2 := find_existing_person db.persons cmp2 threshold true
  let dbA :=
    match m1 with
    | FindResult.found m => update_existing_person db m.person_id m.confidence a1 h1 n1 false
    | _ => (register_new_person db hh t1 a1 h1 n1 false false).1
  match m2 with
  | FindResult.found m => update_existing_person dbA m.person_id m.confidence a2 h2 n2 false
  | _ => (register_new_person dbA hh t2 a2 h2 n2 false false).1

/-- First registration, at timestamp second `20260101_120000`. -/
def regFirst : DB × Except String RegInfo :=
  register_new_person initialDB hashZero "20260101_120000" faceA "hA" 5 false false

/-- Second registration of a different image in the same clock second. -/
def regSecond : DB × Except String RegInfo :=
  register_new_person regFirst.1 hashZero "20260101_120000" faceA "hB" 5 false false

/-- A candidate the comparison loop, entered with running highest
confidence `hc`, would record as a new qualifying best match: comparison
succeeded, verified, confidence strictly above the running highest, and at
least `threshold * 100`. -/
def Qualifies (cmp : Person → Option VerifyResult) (threshold hc : ℚ) (p : Person) : Prop :=
  ∃ r, cmp p = some r ∧ r.verified = true ∧ hc < confOf r ∧ threshold * 100 ≤ confOf r

/-- Detections attributed to person `pid`. -/
def detsOf (dets : List Detection) (pid : Nat) : List Detection :=
  dets.filter (fun d => d.person_id == pid)

/-- Arithmetic mean of the confidences of the non-initiating detections of
a person (the detections after the first one, in insertion order), taken as
0 when the initiating detection is the only one. -/
def tailMean : List Detection → ℚ
  | [] => 0
  | _ :: rest =>
      if rest.length = 0 then 0
      else ((rest.map (fun d => d.confidence)).sum) / (rest.length : ℚ)

/-- The statistics stored on a person row agree with the detection audit
trail: the count matches, the running average is the mean of the
confidences excluding the initiating detection, and the initiating (first)
detection exists and carries confidence 100. -/
def statsOk (p : Person) (ds : List Detection) : Prop :=
  p.total_detections = ds.length ∧
  p.confidence_avg = tailMean ds ∧
  ∃ d0 tl, ds = d0 :: tl ∧ d0.confidence = 100

/-- Store consistency invariant: person ids are distinct and below the
AUTOINCREMENT counter, every detection references an enrolled person, and
every person row satisfies `statsOk` against its detections. -/
def Invariant (db : DB) : Prop :=
  db.persons.Pairwise (fun p q => p.id ≠ q.id) ∧
  (∀ p ∈ db.persons, p.id < db.next_person_id) ∧
  (∀ d ∈ db.detections, ∃ p ∈ db.persons, d.person_id = p.id) ∧
  (∀ p ∈ db.persons, statsOk p (detsOf db.detections p.id))

/-- One inbound `/check_person` request together with its external-world
oracles (analysis result, comparison oracle, storage failure flags, hash
builtin, timestamp and clock tick). -/
structure Request where
  image_hash : String
  threshold : ℚ
  analysis : AnalysisResult
  cmp : Person → Option VerifyResult
  storageOk : Bool
  updateFail : Bool
  failPersonInsert : Bool
  failDetectionInsert : Bool
  hh : String → Int
  timestamp : String
  now : Nat

/-- Sequential processing of a list of requests against the store. -/
def runRequests : DB → List Request → DB
  | db, [] => db
  | db, r :: rest =>
      runRequests (check_person db r.image_hash r.threshold r.analysis r.cmp r.storageOk
        r.updateFail r.failPersonInsert r.failDetectionInsert r.hh r.timestamp r.now).2 rest

/-- The request that populates the store `db1`. -/
def req0 : Request :=
  { image_hash := "hA", threshold := 13/20, analysis := AnalysisResult.single faceA,
    cmp := cmpNone, storageOk := true, updateFail := false, failPersonInsert := false,
    failDetectionInsert := false, hh := hashZero, timestamp := "t0", now := 1 }

/-! ## C1 — running-average update formula -/

/-- C1 counterexample.  In the SQL `UPDATE` every right-hand side reads the
OLD row, so on a person with `total_detections = 1` and `confidence_avg = 0`
a recognized detection at confidence 80 stores average `80`, not the
claimed `(0 * 1 + 80) / (1 + 1) = 40`: the claim that the old average is
weighted by the pre-increment count and divided by that count plus one is
false on the code. -/
theorem c1_counterexample :
    db1.persons.map (fun p => (p.total_detections, p.confidence_avg)) = [(1, (0 : ℚ))] ∧
    (update_existing_person db1 1 80 faceA "hB" 2 false).persons.map
      (fun p => p.confidence_avg) = [(80 : ℚ)] ∧
    ((80 : ℚ)) ≠ ((0 : ℚ) * 1 + 80) / (1 + 1) := by
  refine ⟨rfl, ?_, by norm_num⟩
  norm_num [update_existing_person, db1, register_new_person, initialDB, updatePersonRow,
    generate_person_code, hashZero, pad4, mkDetection, mkNewPerson, faceA]

/-- C1 (amended): on a Recognized outcome for the person row with the
matched id, the statistics update sets `totalDetections` to its old value
plus one, sets `confidenceAvg` to
`(old confidenceAvg * (old totalDetections - 1) + new confidence) / old totalDetections`
— the old average is weighted by the count of prior non-initiating
detections and the divisor is the pre-increment count, so the average keeps
excluding the initiating registration detection — sets `lastSeen` to the
current time, and appends the new Detection row. -/
theorem c1_amended (db : DB) (pid : Nat) (c : ℚ) (a : FaceData) (image_hash : String)
    (now : Nat) (p : Person) (hp : p ∈ db.persons) (hid : p.id = pid) :
    updatePersonRow p c now ∈ (update_existing_person db pid c a image_hash now false).persons ∧
    (updatePersonRow p c now).total_detections = p.total_detections + 1 ∧
    (updatePersonRow p c now).confidence_avg
      = (p.confidence_avg * ((p.total_detections : ℚ) - 1) + c) / (p.total_detections : ℚ) ∧
    (updatePersonRow p c now).last_seen = now ∧
    (update_existing_person db pid c a image_hash now false).detections
      = db.detections ++ [mkDetection pid c image_hash a now] := by
  refine ⟨?_, rfl, rfl, rfl, rfl⟩
  have hfun : (fun q => if q.id == pid then updatePersonRow q c now else q) p
      = updatePersonRow p c now := by
    simp [hid]
  have hmem := List.mem_map_of_mem (fun q => if q.id == pid then updatePersonRow q c now else q) hp
  rw [hfun] at hmem
  simpa [update_existing_person] using hmem

/-- Witness for `c1_amended` at the store `db1` and its person row. -/
theorem c1_amended_witness :
    updatePersonRow person1 80 2 ∈ (update_existing_person db1 1 80 faceA "hB" 2 false).persons ∧
    (updatePersonRow person1 80 2).total_detections = person1.total_detections + 1 ∧
    (updatePersonRow person1 80 2).confidence_avg
      = (person1.confidence_avg * ((person1.total_detections : ℚ) - 1) + 80)
          / (person1.total_detections : ℚ) ∧
    (updatePersonRow person1 80 2).last_seen = 2 ∧
    (update_existing_person db1 1 80 faceA "hB" 2 false).detections
      = db1.detections ++ [mkDetection 1 80 "hB" faceA 2] :=
  c1_amended db1 1 80 faceA "hB" 2 person1 (List.mem_singleton.mpr rfl) rfl

/-! ## C3 — storage failures and the soft/hard boundary -/

/-- C3 counterexample.  With one person enrolled, a probe whose gallery scan
hits a storage failure (the catch-all in `find_existing_person` turns the
exception into a found-equals-false dictionary) is NOT surfaced as a request
failure: the pipeline goes on to register a brand-new person, returning the
soft outcome `new_person_registered` and growing the gallery from one person
to two — a hard error absorbed into a soft outcome with a gallery mutation. -/
theorem c3_counterexample :
    (check_person db1 "hB" (13/20) (AnalysisResult.single faceA) cmpNone false false false false
        hashZero "t1" 2).1
      = Outcome.new_person_registered 2 (generate_person_code hashZero "t1") ∧
    (check_person db1 "hB" (13/20) (AnalysisResult.single faceA) cmpNone false false false false
        hashZero "t1" 2).2.persons.length = 2 ∧
    db1.persons.length = 1 :=
  ⟨rfl, rfl, rfl⟩

/-- C3 (amended): only a storage failure inside `register_new_person` is
surfaced to the caller (as a 500) with the store rolled back; a storage
failure during the gallery scan is caught and absorbed into a not-found
result (so the pipeline can go on to register), and a storage failure during
the statistics update is rolled back and swallowed — the caller still
receives the soft `person_recognized` outcome over the unchanged store. -/
theorem c3_amended (db : DB) (image_hash : String) (threshold : ℚ) (a : FaceData)
    (cmp : Person → Option VerifyResult) (uF f2 : Bool) (hh : String → Int)
    (t : String) (now : Nat)
    (hnd : db.detections.find? (fun d => d.image_hash == image_hash) = none) :
    (find_existing_person db.persons cmp threshold false = FindResult.errorNotFound) ∧
    (∀ m p, find_existing_person db.persons cmp threshold true = FindResult.found m →
      db.persons.find? (fun q => q.id == m.person_id) = some p →
      check_person db image_hash threshold (AnalysisResult.single a) cmp true true false f2
          hh t now
        = (Outcome.person_recognized m.person_id p.person_code m.confidence
            p.total_detections p.confidence_avg, db)) ∧
    (∀ storageOk : Bool,
      (∀ m, find_existing_person db.persons cmp threshold storageOk ≠ FindResult.found m) →
      check_person db image_hash threshold (AnalysisResult.single a) cmp storageOk uF true f2
          hh t now
        = (Outcome.http_error, db)) := by
  refine ⟨rfl, ?_, ?_⟩
  · intro m p hfind hread
    have hupd : update_existing_person db m.person_id m.confidence a image_hash now true = db := rfl
    simp [check_person, hnd, resolve_with_face, hfind, hupd, hread]
  · intro storageOk hnf
    have hreg : register_new_person db hh t a image_hash now true f2
        = (db, Except.error "storage error") := rfl
    rcases hfind : find_existing_person db.persons cmp threshold storageOk with m | hq | _ | _
    · exact absurd hfind (hnf m)
    all_goals simp [check_person, hnd, resolve_with_face, hfind, hreg]

/-- Witness for `c3_amended`: with one enrolled person, a scan that reports
no match followed by a failing person insert surfaces as a hard error with
the store unchanged, and the caught-scan-failure branch returns the
found-equals-false error dictionary. -/
theorem c3_amended_witness :
    find_existing_person db1.persons cmpNone (13/20) false = FindResult.errorNotFound ∧
    check_person db1 "hB" (13/20) (AnalysisResult.single faceA) cmpNone true false true false
      hashZero "t1" 2 = (Outcome.http_error, db1) := by
  have h := c3_amended db1 "hB" (13/20) faceA cmpNone false false hashZero "t1" 2 rfl
  refine ⟨h.1, h.2.2 true ?_⟩
  intro m hm
  rw [show find_existing_person db1.persons cmpNone (13/20) true = FindResult.notFound 0
    from rfl] at hm
  exact FindResult.noConfusion hm

/-! ## C4 — exact-duplicate short-circuit -/

/-- C4: a probe whose fingerprint equals that of some stored Detection
returns `exact_duplicate` carrying the person id of the first such stored
Detection, with the store unchanged; the result does not depend on the
analysis oracle or the comparison oracle (face analysis and the gallery
scan are never reached), and no Person or Detection row is touched. -/
theorem c4_exact_duplicate (db : DB) (image_hash : String) (threshold : ℚ)
    (analysis : AnalysisResult) (cmp : Person → Option VerifyResult)
    (storageOk updateFail f1 f2 : Bool) (hh : String → Int) (t : String) (now : Nat)
    (hdup : ∃ d ∈ db.detections, d.image_hash = image_hash) :
    ∃ d, db.detections.find? (fun x => x.image_hash == image_hash) = some d ∧
      d ∈ db.detections ∧ d.image_hash = image_hash ∧
      check_person db image_hash threshold analysis cmp storageOk updateFail f1 f2 hh t now
        = (Outcome.exact_duplicate d.person_id, db) := by
  obtain ⟨d0, hd0, hh0⟩ := hdup
  have hsome : (db.detections.find? (fun x => x.image_hash == image_hash)).isSome := by
    rw [List.find?_isSome]
    exact ⟨d0, hd0, by simp [hh0]⟩
  obtain ⟨d, hd⟩ := Option.isSome_iff_exists.mp hsome
  refine ⟨d, hd, List.mem_of_find?_eq_some hd, ?_, by simp [check_person, hd]⟩
  have := List.find?_some hd
  simpa using this

/-- Witness for `c4_exact_duplicate`: resubmitting the fingerprint `hA`
already stored in `db1`. -/
theorem c4_exact_duplicate_witness :
    ∃ d, db1.detections.find? (fun x => x.image_hash == "hA") = some d ∧
      d ∈ db1.detections ∧ d.image_hash = "hA" ∧
      check_person db1 "hA" (13/20) (AnalysisResult.single faceA) cmpNone true false false false
          hashZero "t1" 2
        = (Outcome.exact_duplicate d.person_id, db1) :=
  c4_exact_duplicate db1 "hA" (13/20) (AnalysisResult.single faceA) cmpNone true false false
    false hashZero "t1" 2 ⟨detection1, List.mem_singleton.mpr rfl, rfl⟩

/-! ## C8 — concurrent registration race -/

/-- C8 (code bug): under the racing schedule both scans see the empty
gallery, both conclude "no qualifying match", and both registrations
commit: the store ends with TWO person rows for the one individual, where
the claim requires exactly one.  `src/main.py` has no lock and no
pre-commit re-check, so this interleaving is reachable. -/
theorem c8_race_two_person_rows :
    (raceNewFace initialDB cmpNone cmpNone (13/20) faceA faceA "hA" "hB" hashZero
        "20260101_120000" "20260101_120001" 5 6).persons.length = 2 ∧
    (raceNewFace initialDB cmpNone cmpNone (13/20) faceA faceA "hA" "hB" hashZero
        "20260101_120000" "20260101_120001" 5 6).persons.map (fun p => p.id) = [1, 2] :=
  ⟨rfl, rfl⟩

/-! ## C9 — person-code uniqueness -/

/-- C9 (code bug): `generate_person_code` is a pure function of the
second-granularity timestamp (the weak-hash suffix hashes the very same
timestamp string), so two back-to-back registrations inside one clock
second produce the same code and the second `INSERT` violates the UNIQUE
constraint on `person_code`: instead of a second Person row with a distinct
code, the second call fails and is rolled back. -/
theorem c9_same_second_code_collision :
    generate_person_code hashZero "20260101_120000" = "PERSON_20260101_120000_0000" ∧
    regFirst.2 = Except.ok { person_id := 1, person_code := "PERSON_20260101_120000_0000" } ∧
    regSecond.2 = Except.error "UNIQUE constraint failed: auto_persons.person_code" ∧
    regSecond.1 = regFirst.1 ∧
    regFirst.1.persons.length = 1 :=
  ⟨rfl, rfl, rfl, rfl, rfl⟩

/-! ## C10 — duplicate outcome is threshold-independent -/

/-- C10: when the probe fingerprint is already stored, the whole pipeline
result — outcome and final store — is the same for any two threshold
values: the duplicate check runs before the threshold is ever consulted. -/
theorem c10_threshold_independent (db : DB) (image_hash : String) (d : Detection)
    (hdup : db.detections.find? (fun x => x.image_hash == image_hash) = some d)
    (thr1 thr2 : ℚ) (analysis : AnalysisResult) (cmp : Person → Option VerifyResult)
    (storageOk updateFail f1 f2 : Bool) (hh : String → Int) (t : String) (now : Nat) :
    check_person db image_hash thr1 analysis cmp storageOk updateFail f1 f2 hh t now
      = check_person db image_hash thr2 analysis cmp storageOk updateFail f1 f2 hh t now := by
  simp [check_person, hdup]

/-- Witness for `c10_threshold_independent` at `db1` with thresholds
`0.65` and `0.5`. -/
theorem c10_threshold_independent_witness :
    check_person db1 "hA" (13/20) (AnalysisResult.single faceA) cmpNone true false false false
        hashZero "t1" 2
      = check_person db1 "hA" (1/2) (AnalysisResult.single faceA) cmpNone true false false false
        hashZero "t1" 2 :=
  c10_threshold_independent db1 "hA" detection1 rfl (13/20) (1/2)
    (AnalysisResult.single faceA) cmpNone true false false false hashZero "t1" 2

/-! ## C6 — atomicity of new-person registration -/

/-- C6: new-person registration is atomic.  On success exactly one Person
row and one Detection row (confidence 100, the probe fingerprint, the new
person id) are appended together; on any failure — a storage error at
either insert or a UNIQUE violation — the transaction is rolled back, the
store is unchanged, and the error is propagated (`Except.error`); and the
operation preserves the invariant that every Person has at least one
Detection. -/
theorem c6_registration_atomic (db : DB) (hh : String → Int) (t : String) (a : FaceData)
    (image_hash : String) (now : Nat) (f1 f2 : Bool) :
    (∀ db2 info, register_new_person db hh t a image_hash now f1 f2 = (db2, Except.ok info) →
      db2.persons = db.persons
          ++ [mkNewPerson db.next_person_id (generate_person_code hh t) a now] ∧
      db2.detections = db.detections ++ [mkDetection db.next_person_id 100 image_hash a now] ∧
      info = { person_id := db.next_person_id,
               person_code := generate_person_code hh t }) ∧
    (∀ db2 e, register_new_person db hh t a image_hash now f1 f2 = (db2, Except.error e) →
      db2 = db) ∧
    ((∀ p ∈ db.persons, ∃ d ∈ db.detections, d.person_id = p.id) →
      ∀ p ∈ (register_new_person db hh t a image_hash now f1 f2).1.persons,
        ∃ d ∈ (register_new_person db hh t a image_hash now f1 f2).1.detections,
          d.person_id = p.id) := by
  refine ⟨?_, ?_, ?_⟩
  · intro db2 info h
    cases f1 <;> cases f2 <;>
      by_cases hdup :
        (db.persons.any (fun p => p.person_code == generate_person_code hh t)) = true <;>
      simp [register_new_person, hdup] at h
    all_goals obtain ⟨h1, h2⟩ := h
    all_goals subst h1
    all_goals exact ⟨rfl, rfl, h2.symm⟩
  · intro db2 e h
    cases f1 <;> cases f2 <;>
      by_cases hdup :
        (db.persons.any (fun p => p.person_code == generate_person_code hh t)) = true <;>
      simp [register_new_person, hdup] at h <;>
      exact h.1.symm
  · intro hinv p hp
    cases f1 <;> cases f2 <;>
      by_cases hdup :
        (db.persons.any (fun p => p.person_code == generate_person_code hh t)) = true <;>
      simp only [register_new_person, hdup, Bool.false_eq_true, if_true, if_false,
        ite_true, ite_false, Bool.true_eq_false, not_false_eq_true] at hp ⊢ <;>
      try exact hinv p hp
    -- remaining case: successful registration
    rcases List.mem_append.mp hp with hold | hnew
    · obtain ⟨d, hd, hdid⟩ := hinv p hold
      exact ⟨d, List.mem_append_left _ hd, hdid⟩
    · have hpe : p = mkNewPerson db.next_person_id (generate_person_code hh t) a now := by
        simpa using hnew
      subst hpe
      exact ⟨mkDetection db.next_person_id 100 image_hash a now,
        List.mem_append_right _ (List.mem_singleton.mpr rfl), rfl⟩

/-- Witness for `c6_registration_atomic`: a failing person insert on `db1`
is propagated as an error with the store unchanged. -/
theorem c6_registration_atomic_witness :
    (register_new_person db1 hashZero "t1" faceA "hB" 2 true false).1 = db1 :=
  (c6_registration_atomic db1 hashZero "t1" faceA "hB" 2 true false).2.1
    (register_new_person db1 hashZero "t1" faceA "hB" 2 true false).1 "storage error" rfl

/-! ## C7 — no-face / multiple-faces outcomes -/

/-- C7: a probe (that is not an exact duplicate, so analysis actually runs)
for which face analysis raises or reports no face yields the soft `no_face`
outcome, and one reporting two or more faces yields `multiple_faces` with
the count; in all these cases `seen_before` is false, the store is returned
unchanged, and — since the result does not depend on the comparison oracle
`cmp` or any of the storage flags, over which this theorem is universally
quantified — the Matcher is never consulted and no gallery mutation
happens. -/
theorem c7_soft_outcomes (db : DB) (image_hash : String) (threshold : ℚ)
    (cmp : Person → Option VerifyResult) (storageOk updateFail f1 f2 : Bool)
    (hh : String → Int) (t : String) (now : Nat) (analysis : AnalysisResult)
    (hnd : db.detections.find? (fun d => d.image_hash == image_hash) = none)
    (ha : analysis = AnalysisResult.failure ∨ analysis = AnalysisResult.faces [] ∨
      ∃ l, analysis = AnalysisResult.faces l ∧ 2 ≤ l.length) :
    ∃ out, check_person db image_hash threshold analysis cmp storageOk updateFail f1 f2 hh t now
        = (out, db) ∧
      seenBeforeFlag out = false ∧
      ((analysis = AnalysisResult.failure ∨ analysis = AnalysisResult.faces []) →
        out = Outcome.no_face) ∧
      (∀ l, analysis = AnalysisResult.faces l → 2 ≤ l.length →
        out = Outcome.multiple_faces l.length) := by
  rcases ha with rfl | rfl | ⟨l, rfl, hl⟩
  · refine ⟨Outcome.no_face, by simp [check_person, hnd], rfl, fun _ => rfl, ?_⟩
    intro l h
    cases h
  · refine ⟨Outcome.no_face, by simp [check_person, hnd], rfl, fun _ => rfl, ?_⟩
    intro l h hlen
    injection h with h'
    rw [← h'] at hlen
    exact absurd hlen (by simp)
  · rcases l with _ | ⟨x, _ | ⟨y, tl⟩⟩
    · exact absurd hl (by simp)
    · exact absurd hl (by simp)
    · refine ⟨Outcome.multiple_faces (x :: y :: tl).length, by simp [check_person, hnd],
        rfl, ?_, ?_⟩
      · rintro (h | h) <;> cases h
      · intro l' h _
        injection h with h'
        rw [h']

/-- Witness for `c7_soft_outcomes`: a two-face analysis over `db1`. -/
theorem c7_soft_outcomes_witness :
    ∃ out, check_person db1 "hB" (13/20) (AnalysisResult.faces [faceA, faceA]) cmpNone true
        false false false hashZero "t1" 2 = (out, db1) ∧
      seenBeforeFlag out = false ∧
      ((AnalysisResult.faces [faceA, faceA] = AnalysisResult.failure ∨
        AnalysisResult.faces [faceA, faceA] = AnalysisResult.faces []) →
        out = Outcome.no_face) ∧
      (∀ l, AnalysisResult.faces [faceA, faceA] = AnalysisResult.faces l → 2 ≤ l.length →
        out = Outcome.multiple_faces l.length) :=
  c7_soft_outcomes db1 "hB" (13/20) cmpNone true false false false hashZero "t1" 2
    (AnalysisResult.faces [faceA, faceA]) rfl
    (Or.inr (Or.inr ⟨[faceA, faceA], rfl, by simp⟩))

/-! ## C5 — best-match selection and the threshold boundary -/

/-- Loop invariant of the comparison loop of `find_existing_person`: the
running highest confidence only grows and ends up bounding every verified
confidence seen; a recorded best match carries exactly the running highest
confidence and meets the threshold (given that the entry best match does);
a recorded best match stems from some scanned candidate; and the loop ends
with no best match exactly when it entered with none and no scanned
candidate qualifies. -/
theorem scanPersons_spec (cmp : Person → Option VerifyResult) (threshold : ℚ)
    (l : List Person) : ∀ best hc,
    hc ≤ (scanPersons cmp threshold l best hc).2 ∧
    (∀ p ∈ l, ∀ r, cmp p = some r → r.verified = true →
      confOf r ≤ (scanPersons cmp threshold l best hc).2) ∧
    ((∀ m, best = some m → m.confidence = hc ∧ threshold * 100 ≤ m.confidence) →
      ∀ m, (scanPersons cmp threshold l best hc).1 = some m →
        m.confidence = (scanPersons cmp threshold l best hc).2 ∧
        threshold * 100 ≤ m.confidence) ∧
    ((scanPersons cmp threshold l best hc).1 = best ∨
      ∃ p ∈ l, ∃ r, cmp p = some r ∧ r.verified = true ∧ hc < confOf r ∧
        threshold * 100 ≤ confOf r ∧
        (scanPersons cmp threshold l best hc).1
          = some { person_id := p.id, person_code := p.person_code,
                   confidence := confOf r }) ∧
    ((scanPersons cmp threshold l best hc).1 = none →
      best = none ∧ ∀ p ∈ l, ¬ Qualifies cmp threshold hc p) := by
  induction l with
  | nil =>
      intro best hc
      exact ⟨le_refl hc, by simp, fun h => h, Or.inl rfl, fun h => ⟨h, by simp⟩⟩
  | cons q rest ih =>
      intro best hc
      rcases hcmp : cmp q with _ | r
      · -- candidate skipped: missing reference image or comparison error
        have heq : scanPersons cmp threshold (q :: rest) best hc
            = scanPersons cmp threshold rest best hc := by
          simp [scanPersons, hcmp]
        rw [heq]
        obtain ⟨ih1, ih2, ih3, ih4, ih5⟩ := ih best hc
        refine ⟨ih1, ?_, ih3, ?_, ?_⟩
        · intro p hp r' hr' hv'
          rcases List.mem_cons.mp hp with rfl | hp
          · rw [hcmp] at hr'; cases hr'
          · exact ih2 p hp r' hr' hv'
        · rcases ih4 with h | ⟨p, hp, hrest⟩
          · exact Or.inl h
          · exact Or.inr ⟨p, List.mem_cons_of_mem _ hp, hrest⟩
        · intro hnone
          obtain ⟨hb, hall⟩ := ih5 hnone
          refine ⟨hb, ?_⟩
          intro p hp hq
          rcases List.mem_cons.mp hp with rfl | hp
          · obtain ⟨r', hr', _⟩ := hq
            rw [hcmp] at hr'; cases hr'
          · exact hall p hp hq
      · by_cases hcond : r.verified = true ∧ hc < confOf r
        · by_cases hthr : threshold * 100 ≤ confOf r
          · -- verified, strictly higher, and at least the threshold:
            -- both the best match and the highest confidence are replaced
            have heq : scanPersons cmp threshold (q :: rest) best hc
                = scanPersons cmp threshold rest
                    (some { person_id := q.id, person_code := q.person_code,
                            confidence := confOf r }) (confOf r) := by
              simp [scanPersons, hcmp, hcond, hthr]
            rw [heq]
            obtain ⟨ih1, ih2, ih3, ih4, ih5⟩ :=
              ih (some { person_id := q.id, person_code := q.person_code,
                         confidence := confOf r }) (confOf r)
            refine ⟨le_trans (le_of_lt hcond.2) ih1, ?_, ?_, ?_, ?_⟩
            · intro p hp r' hr' hv'
              rcases List.mem_cons.mp hp with rfl | hp
              · rw [hcmp] at hr'
                injection hr' with h'
                subst h'
                exact ih1
              · exact ih2 p hp r' hr' hv'
            · intro _ m hm
              refine ih3 ?_ m hm
              intro m' hm'
              injection hm' with h'
              rw [← h']
              exact ⟨rfl, hthr⟩
            · rcases ih4 with h | ⟨p, hp, r', hr', hv', hlt', hthr', hfin⟩
              · exact Or.inr ⟨q, List.mem_cons_self q rest, r, hcmp, hcond.1, hcond.2, hthr, h⟩
              · exact Or.inr ⟨p, List.mem_cons_of_mem _ hp, r', hr', hv',
                  lt_trans hcond.2 hlt', hthr', hfin⟩
            · intro hnone
              exact absurd (ih5 hnone).1 (by simp)
          · -- verified and strictly higher but below threshold:
            -- the highest confidence rises, the best match is kept
            have heq : scanPersons cmp threshold (q :: rest) best hc
                = scanPersons cmp threshold rest best (confOf r) := by
              simp [scanPersons, hcmp, hcond, hthr]
            rw [heq]
            obtain ⟨ih1, ih2, ih3, ih4, ih5⟩ := ih best (confOf r)
            refine ⟨le_trans (le_of_lt hcond.2) ih1, ?_, ?_, ?_, ?_⟩
            · intro p hp r' hr' hv'
              rcases List.mem_cons.mp hp with rfl | hp
              · rw [hcmp] at hr'
                injection hr' with h'
                subst h'
                exact ih1
              · exact ih2 p hp r' hr' hv'
            · intro hbest m hm
              refine ih3 ?_ m hm
              intro m' hm'
              obtain ⟨h1, h2⟩ := hbest m' hm'
              exact absurd (le_of_lt (lt_of_le_of_lt (h1 ▸ h2) hcond.2)) hthr
            · rcases ih4 with h | ⟨p, hp, r', hr', hv', hlt', hthr', hfin⟩
              · exact Or.inl h
              · exact Or.inr ⟨p, List.mem_cons_of_mem _ hp, r', hr', hv',
                  lt_trans hcond.2 hlt', hthr', hfin⟩
            · intro hnone
              obtain ⟨hb, hall⟩ := ih5 hnone
              refine ⟨hb, ?_⟩
              intro p hp hq
              rcases List.mem_cons.mp hp with rfl | hp
              · obtain ⟨r', hr', hv', hlt', hthr'⟩ := hq
                rw [hcmp] at hr'
                injection hr' with h'
                subst h'
                exact hthr hthr'
              · obtain ⟨r', hr', hv', hlt', hthr'⟩ := hq
                exact hall p hp ⟨r', hr', hv',
                  lt_of_lt_of_le (not_le.mp hthr) hthr', hthr'⟩
        · -- not verified, or not strictly above the running highest: skipped
          have heq : scanPersons cmp threshold (q :: rest) best hc
              = scanPersons cmp threshold rest best hc := by
            simp [scanPersons, hcmp, hcond]
          rw [heq]
          obtain ⟨ih1, ih2, ih3, ih4, ih5⟩ := ih best hc
          refine ⟨ih1, ?_, ih3, ?_, ?_⟩
          · intro p hp r' hr' hv'
            rcases List.mem_cons.mp hp with rfl | hp
            · rw [hcmp] at hr'
              injection hr' with h'
              subst h'
              have hnlt : ¬ hc < confOf r := fun hlt => hcond ⟨hv', hlt⟩
              exact le_trans (not_lt.mp hnlt) ih1
            · exact ih2 p hp r' hr' hv'
          · rcases ih4 with h | ⟨p, hp, hrest⟩
            · exact Or.inl h
            · exact Or.inr ⟨p, List.mem_cons_of_mem _ hp, hrest⟩
          · intro hnone
            obtain ⟨hb, hall⟩ := ih5 hnone
            refine ⟨hb, ?_⟩
            intro p hp hq
            rcases List.mem_cons.mp hp with rfl | hp
            · obtain ⟨r', hr', hv', hlt', hthr'⟩ := hq
              rw [hcmp] at hr'
              injection hr' with h'
              subst h'
              exact hcond ⟨hv', hlt'⟩
            · exact hall p hp hq

/-- C5 (amended): the Matcher reports a qualifying match iff some candidate
has a verified comparison whose confidence `(1 - distance) * 100` is both
at least `threshold * 100` AND strictly positive — the extra positivity
condition is forced by the loop initialising its running highest confidence
to `0.0` and only considering strictly higher candidates, and it is vacuous
for every positive threshold.  The reported match meets the threshold
(inclusive boundary), stems from a scanned candidate, and carries the
highest verified confidence of the whole scan; when no candidate qualifies
the scan reports no match, which sends the pipeline to the NewPerson
branch. -/
theorem c5_amended (persons : List Person) (cmp : Person → Option VerifyResult)
    (threshold : ℚ) :
    ((∃ m, find_existing_person persons cmp threshold true = FindResult.found m) ↔
      ∃ p ∈ persons, ∃ r, cmp p = some r ∧ r.verified = true ∧ 0 < confOf r ∧
        threshold * 100 ≤ confOf r) ∧
    (∀ m, find_existing_person persons cmp threshold true = FindResult.found m →
      threshold * 100 ≤ m.confidence ∧
      (∃ p ∈ persons, ∃ r, cmp p = some r ∧ r.verified = true ∧
        m.person_id = p.id ∧ m.confidence = confOf r) ∧
      (∀ p ∈ persons, ∀ r, cmp p = some r → r.verified = true →
        confOf r ≤ m.confidence)) := by
  cases persons with
  | nil =>
      refine ⟨⟨?_, ?_⟩, ?_⟩
      · rintro ⟨m, hm⟩
        rw [show find_existing_person [] cmp threshold true = FindResult.noPersons
          from rfl] at hm
        cases hm
      · rintro ⟨p, hp, _⟩
        cases hp
      · intro m hm
        rw [show find_existing_person [] cmp threshold true = FindResult.noPersons
          from rfl] at hm
        cases hm
  | cons q qs =>
      obtain ⟨s1, s2, s3, s4, s5⟩ := scanPersons_spec cmp threshold (q :: qs) none 0
      have hbest0 : ∀ m : MatchInfo, (none : Option MatchInfo) = some m →
          m.confidence = 0 ∧ threshold * 100 ≤ m.confidence := by
        intro m hm; cases hm
      rcases hscan : scanPersons cmp threshold (q :: qs) none 0 with ⟨b, hcf⟩
      rw [hscan] at s1 s2 s3 s4 s5
      simp only at s1 s2 s3 s4 s5
      cases b with
      | none =>
          have hfind : find_existing_person (q :: qs) cmp threshold true
              = FindResult.notFound hcf := by
            simp [find_existing_person, hscan]
          refine ⟨⟨?_, ?_⟩, ?_⟩
          · rintro ⟨m, hm⟩
            rw [hfind] at hm
            cases hm
          · rintro ⟨p, hp, r, hr, hv, h0, hthr⟩
            exact absurd ⟨r, hr, hv, h0, hthr⟩ ((s5 rfl).2 p hp)
          · intro m hm
            rw [hfind] at hm
            cases hm
      | some m0 =>
          have hfind : find_existing_person (q :: qs) cmp threshold true
              = FindResult.found m0 := by
            simp [find_existing_person, hscan]
          refine ⟨⟨?_, ?_⟩, ?_⟩
          · rintro ⟨m, _⟩
            rcases s4 with h | ⟨p, hp, r, hr, hv, hlt, hthr, hsome⟩
            · cases h
            · exact ⟨p, hp, r, hr, hv, hlt, hthr⟩
          · intro _
            exact ⟨m0, hfind⟩
          · intro m hm
            rw [hfind] at hm
            injection hm with h'
            subst h'
            obtain ⟨hconf, hthr0⟩ := s3 hbest0 m0 rfl
            refine ⟨hthr0, ?_, ?_⟩
            · rcases s4 with h | ⟨p, hp, r, hr, hv, hlt, hthr, hsome⟩
              · cases h
              · injection hsome with h'
                exact ⟨p, hp, r, hr, hv, by rw [h'], by rw [h']⟩
            · intro p hp r hr hv
              rw [hconf]
              exact s2 p hp r hr hv

/-- C5 counterexample.  With threshold 0 and a single candidate whose
comparison is verified at distance 1 (confidence `(1 - 1) * 100 = 0`, which
is `≥ threshold * 100 = 0`), the claim asserts a qualifying match, but the
loop — whose running highest confidence starts at `0.0` and only admits
strictly higher candidates — reports no match, so the claimed equivalence
is false at this input. -/
theorem c5_counterexample :
    ¬ ((∃ m, find_existing_person [personX] cmpWorst 0 true = FindResult.found m) ↔
      ∃ p ∈ [personX], ∃ r, cmpWorst p = some r ∧ r.verified = true ∧
        (0 : ℚ) * 100 ≤ confOf r) := by
  intro hiff
  obtain ⟨m, hm⟩ := hiff.mpr ⟨personX, List.mem_singleton.mpr rfl,
    { verified := true, distance := 1 }, rfl, rfl, by norm_num [confOf]⟩
  have hfind : find_existing_person [personX] cmpWorst 0 true = FindResult.notFound 0 := by
    norm_num [find_existing_person, scanPersons, cmpWorst, confOf]
  rw [hfind] at hm
  cases hm

/-- Witness for `c5_amended`: a gallery of one person, a verified
comparison at confidence 80 and threshold `0.65` yield a match. -/
theorem c5_amended_witness :
    ∃ m, find_existing_person [person1] cmpGood (13/20) true = FindResult.found m :=
  (c5_amended [person1] cmpGood (13/20)).1.mpr
    ⟨person1, List.mem_singleton.mpr rfl, { verified := true, distance := 1/5 }, rfl, rfl,
      by norm_num [confOf], by norm_num [confOf]⟩

/-! ## C2 — the stored statistics agree with the detection audit trail -/

/-- A found result of the gallery scan always names an enrolled person. -/
theorem find_found_mem (persons : List Person) (cmp : Person → Option VerifyResult)
    (threshold : ℚ) (storageOk : Bool) (m : MatchInfo)
    (h : find_existing_person persons cmp threshold storageOk = FindResult.found m) :
    ∃ p ∈ persons, m.person_id = p.id := by
  cases storageOk with
  | false => simp [find_existing_person] at h
  | true =>
      cases persons with
      | nil => simp [find_existing_person] at h
      | cons q qs =>
          obtain ⟨_, _, _, s4, _⟩ := scanPersons_spec cmp threshold (q :: qs) none 0
          rcases hscan : scanPersons cmp threshold (q :: qs) none 0 with ⟨b, hcf⟩
          rw [hscan] at s4
          simp only at s4
          cases b with
          | none => simp [find_existing_person, hscan] at h
          | some m0 =>
              have hm0 : m0 = m := by
                have hfm : FindResult.found m0 = FindResult.found m := by
                  rw [← h]
                  simp [find_existing_person, hscan]
                injection hfm
              subst hm0
              rcases s4 with h4 | ⟨p, hp, r, hr, hv, hlt, hthr, hsome⟩
              · cases h4
              · injection hsome with h'
                exact ⟨p, hp, by rw [h']⟩

/-- Appending a detection splits `detsOf` on whether it is attributed to
the person in question. -/
theorem detsOf_append (dets : List Detection) (d : Detection) (pid : Nat) :
    detsOf (dets ++ [d]) pid
      = detsOf dets pid ++ if d.person_id == pid then [d] else [] := by
  simp [detsOf, List.filter_append, List.filter_singleton]

/-- Mean over the tail after appending one detection. -/
theorem tailMean_cons_append (d0 : Detection) (tl : List Detection) (d : Detection) :
    tailMean (d0 :: (tl ++ [d]))
      = ((tl.map (fun x => x.confidence)).sum + d.confidence) / ((tl.length : ℚ) + 1) := by
  simp only [tailMean, List.length_append, List.length_singleton]
  rw [if_neg (by omega)]
  rw [List.map_append, List.sum_append]
  push_cast
  simp

/-- The SQL statistics update keeps `statsOk` when the matching detection
row is appended in the same transaction. -/
theorem statsOk_update (p : Person) (ds : List Detection) (c : ℚ) (now : Nat) (d : Detection)
    (hd : d.confidence = c) (hs : statsOk p ds) :
    statsOk (updatePersonRow p c now) (ds ++ [d]) := by
  obtain ⟨htot, havg, d0, tl, rfl, h100⟩ := hs
  refine ⟨?_, ?_, d0, tl ++ [d], by simp, h100⟩
  · show p.total_detections + 1 = ((d0 :: tl) ++ [d]).length
    simp [htot]
  · show (p.confidence_avg * ((p.total_detections : ℚ) - 1) + c) / (p.total_detections : ℚ)
        = tailMean ((d0 :: tl) ++ [d])
    rw [show (d0 :: tl) ++ [d] = d0 :: (tl ++ [d]) from rfl]
    rw [tailMean_cons_append, havg, htot, hd]
    rcases tl with _ | ⟨e, tl'⟩
    · simp [tailMean]
    · have hS : tailMean (d0 :: e :: tl')
          = ((e :: tl').map (fun x => x.confidence)).sum / ((e :: tl').length : ℚ) := by
        simp [tailMean]
      rw [hS]
      have hne : (((e :: tl').length : ℚ)) ≠ 0 :=
        Nat.cast_ne_zero.mpr (Nat.succ_ne_zero tl'.length)
      push_cast at hne ⊢
      field_simp
      try ring

/-- `update_existing_person` preserves the store invariant whenever the
target id names an enrolled person (which the gallery scan guarantees). -/
theorem update_preserves_invariant (db : DB) (pid : Nat) (c : ℚ) (a : FaceData)
    (hsh : String) (now : Nat) (fail : Bool)
    (hinv : Invariant db) (hmem : ∃ q ∈ db.persons, pid = q.id) :
    Invariant (update_existing_person db pid c a hsh now fail) := by
  obtain ⟨hpw, hlt, href, hstats⟩ := hinv
  cases fail with
  | true => exact ⟨hpw, hlt, href, hstats⟩
  | false =>
      show Invariant
        { db with
          persons := db.persons.map
            (fun p => if p.id == pid then updatePersonRow p c now else p),
          detections := db.detections ++ [mkDetection pid c hsh a now] }
      have hfid : ∀ p : Person,
          ((fun p => if p.id == pid then updatePersonRow p c now else p) p).id = p.id := by
        intro p
        by_cases h : (p.id == pid) = true <;> simp [h, updatePersonRow]
      refine ⟨?_, ?_, ?_, ?_⟩
      · rw [List.pairwise_map]
        exact hpw.imp (fun hab => by rw [hfid, hfid]; exact hab)
      · intro p' hp'
        obtain ⟨p, hp, rfl⟩ := List.mem_map.mp hp'
        rw [hfid]
        exact hlt p hp
      · intro d hd
        rcases List.mem_append.mp hd with hd | hd
        · obtain ⟨q, hq, hqid⟩ := href d hd
          exact ⟨_, List.mem_map_of_mem _ hq, by rw [hfid]; exact hqid⟩
        · obtain ⟨q, hq, hqid⟩ := hmem
          have hde : d = mkDetection pid c hsh a now := List.mem_singleton.mp hd
          subst hde
          exact ⟨_, List.mem_map_of_mem _ hq, by rw [hfid]; exact hqid⟩
      · intro p' hp'
        obtain ⟨p, hp, rfl⟩ := List.mem_map.mp hp'
        have hiteid : (if (p.id == pid) = true then updatePersonRow p c now else p).id
            = p.id := by
          by_cases h' : (p.id == pid) = true <;> simp [h', updatePersonRow]
        by_cases h : (p.id == pid) = true
        · have hpid : p.id = pid := by simpa using h
          have hdets : detsOf (db.detections ++ [mkDetection pid c hsh a now]) p.id
              = detsOf db.detections p.id ++ [mkDetection pid c hsh a now] := by
            rw [detsOf_append]
            simp [mkDetection, hpid]
          show statsOk (if (p.id == pid) = true then updatePersonRow p c now else p)
            (detsOf (db.detections ++ [mkDetection pid c hsh a now])
              (if (p.id == pid) = true then updatePersonRow p c now else p).id)
          rw [hiteid, hdets, if_pos h]
          exact statsOk_update p _ c now _ rfl (hstats p hp)
        · have hpid : p.id ≠ pid := by simpa using h
          have hdets : detsOf (db.detections ++ [mkDetection pid c hsh a now]) p.id
              = detsOf db.detections p.id := by
            rw [detsOf_append]
            have hb : ((mkDetection pid c hsh a now).person_id == p.id) = false := by
              simp [mkDetection]
              omega
            rw [hb]
            simp
          show statsOk (if (p.id == pid) = true then updatePersonRow p c now else p)
            (detsOf (db.detections ++ [mkDetection pid c hsh a now])
              (if (p.id == pid) = true then updatePersonRow p c now else p).id)
          rw [hiteid, hdets, if_neg h]
          exact hstats p hp

/-- `register_new_person` preserves the store invariant. -/
theorem register_preserves_invariant (db : DB) (hh : String → Int) (t : String)
    (a : FaceData) (hsh : String) (now : Nat) (f1 f2 : Bool) (hinv : Invariant db) :
    Invariant (register_new_person db hh t a hsh now f1 f2).1 := by
  obtain ⟨hpw, hlt, href, hstats⟩ := hinv
  cases f1 <;> cases f2 <;>
    by_cases hdup :
      (db.persons.any (fun p => p.person_code == generate_person_code hh t)) = true <;>
    simp only [register_new_person, hdup, Bool.false_eq_true, Bool.true_eq_false, if_true,
      if_false, ite_true, ite_false, not_false_eq_true] <;>
    try exact ⟨hpw, hlt, href, hstats⟩
  -- remaining goal: the committed transaction
  refine ⟨?_, ?_, ?_, ?_⟩
  · rw [List.pairwise_append]
    refine ⟨hpw, List.pairwise_singleton _ _, ?_⟩
    intro p hp b hb
    have hbe : b = mkNewPerson db.next_person_id (generate_person_code hh t) a now :=
      List.mem_singleton.mp hb
    subst hbe
    exact Nat.ne_of_lt (hlt p hp)
  · intro p hp
    rcases List.mem_append.mp hp with hp | hp
    · exact Nat.lt_trans (hlt p hp) (Nat.lt_succ_self _)
    · have hpe : p = mkNewPerson db.next_person_id (generate_person_code hh t) a now :=
        List.mem_singleton.mp hp
      subst hpe
      exact Nat.lt_succ_self _
  · intro d hd
    rcases List.mem_append.mp hd with hd | hd
    · obtain ⟨q, hq, hqid⟩ := href d hd
      exact ⟨q, List.mem_append_left _ hq, hqid⟩
    · have hde : d = mkDetection db.next_person_id 100 hsh a now := List.mem_singleton.mp hd
      subst hde
      exact ⟨mkNewPerson db.next_person_id (generate_person_code hh t) a now,
        List.mem_append_right _ (List.mem_singleton.mpr rfl), rfl⟩
  · intro p hp
    rcases List.mem_append.mp hp with hp | hp
    · show statsOk p (detsOf (db.detections ++ [mkDetection db.next_person_id 100 hsh a now])
        p.id)
      rw [detsOf_append]
      have hnew : ((mkDetection db.next_person_id 100 hsh a now).person_id == p.id)
          = false := by
        simp [mkDetection]
        exact fun he => Nat.ne_of_lt (hlt p hp) he.symm
      rw [hnew, if_neg (by simp), List.append_nil]
      exact hstats p hp
    · have hpe : p = mkNewPerson db.next_person_id (generate_person_code hh t) a now :=
        List.mem_singleton.mp hp
      subst hpe
      show statsOk _ (detsOf (db.detections ++ [mkDetection db.next_person_id 100 hsh a now])
        (mkNewPerson db.next_person_id (generate_person_code hh t) a now).id)
      rw [detsOf_append]
      have hold : detsOf db.detections
          (mkNewPerson db.next_person_id (generate_person_code hh t) a now).id = [] := by
        rw [detsOf, List.filter_eq_nil_iff]
        intro d hd
        obtain ⟨q, hq, hqid⟩ := href d hd
        simp [mkNewPerson, hqid]
        exact Nat.ne_of_lt (hlt q hq)
      rw [hold]
      have hnew : ((mkDetection db.next_person_id 100 hsh a now).person_id
          == (mkNewPerson db.next_person_id (generate_person_code hh t) a now).id)
          = true := by
        simp [mkDetection, mkNewPerson]
      rw [hnew, if_pos rfl, List.nil_append]
      exact ⟨rfl, by simp [tailMean, mkNewPerson], mkDetection db.next_person_id 100 hsh a now,
        [], rfl, rfl⟩

/-- The single-face tail of the pipeline preserves the store invariant on
every path: a failing statistics update and every failing registration roll
back, a successful statistics update targets the enrolled matched person,
and a successful registration appends a consistent fresh person. -/
theorem resolve_preserves_invariant (db : DB) (image_hash : String) (threshold : ℚ)
    (a : FaceData) (cmp : Person → Option VerifyResult)
    (storageOk updateFail f1 f2 : Bool) (hh : String → Int) (t : String) (now : Nat)
    (hinv : Invariant db) :
    Invariant (resolve_with_face db image_hash threshold a cmp storageOk updateFail f1 f2
      hh t now).2 := by
  rw [resolve_with_face]
  rcases hfind : find_existing_person db.persons cmp threshold storageOk with m | hc | _ | _
  · have hmem := find_found_mem db.persons cmp threshold storageOk m hfind
    have hupd := update_preserves_invariant db m.person_id m.confidence a image_hash now
      updateFail hinv (by obtain ⟨q, hq, hqid⟩ := hmem; exact ⟨q, hq, hqid⟩)
    rcases hread : (update_existing_person db m.person_id m.confidence a image_hash now
      updateFail).persons.find? (fun p => p.id == m.person_id) with _ | p <;>
      simpa [hread] using hupd
  all_goals {
    rcases hreg : register_new_person db hh t a image_hash now f1 f2 with ⟨db2, res⟩
    have hr := register_preserves_invariant db hh t a image_hash now f1 f2 hinv
    rw [hreg] at hr
    cases res <;> simpa using hr
  }

/-- The whole pipeline preserves the store invariant. -/
theorem check_preserves_invariant (db : DB) (image_hash : String) (threshold : ℚ)
    (analysis : AnalysisResult) (cmp : Person → Option VerifyResult)
    (storageOk updateFail f1 f2 : Bool) (hh : String → Int) (t : String) (now : Nat)
    (hinv : Invariant db) :
    Invariant (check_person db image_hash threshold analysis cmp storageOk updateFail f1 f2
      hh t now).2 := by
  rcases hdup : db.detections.find? (fun d => d.image_hash == image_hash) with _ | d
  · cases analysis with
    | failure => simpa [check_person, hdup] using hinv
    | single a' =>
        simpa [check_person, hdup] using
          resolve_preserves_invariant db image_hash threshold a' cmp storageOk updateFail
            f1 f2 hh t now hinv
    | faces l =>
        rcases l with _ | ⟨x, _ | ⟨y, tl⟩⟩
        · simpa [check_person, hdup] using hinv
        · simpa [check_person, hdup] using
            resolve_preserves_invariant db image_hash threshold x cmp storageOk updateFail
              f1 f2 hh t now hinv
        · simpa [check_person, hdup] using hinv
  · simpa [check_person, hdup] using hinv

/-- The empty store satisfies the invariant. -/
theorem initialDB_invariant : Invariant initialDB := by
  refine ⟨List.Pairwise.nil, ?_, ?_, ?_⟩ <;> simp [initialDB]

/-- Any request sequence preserves the invariant. -/
theorem runRequests_invariant (reqs : List Request) :
    ∀ db, Invariant db → Invariant (runRequests db reqs) := by
  induction reqs with
  | nil => intro db h; exact h
  | cons r rest ih =>
      intro db h
      exact ih _ (check_preserves_invariant db r.image_hash r.threshold r.analysis r.cmp
        r.storageOk r.updateFail r.failPersonInsert r.failDetectionInsert r.hh r.timestamp
        r.now h)

/-- C2: after any sequence of `resolveOrRegister` operations starting from
the fresh store — whatever the oracles returned and even on rolled-back
failure paths — every person row stores `totalDetections` equal to the
number of Detection rows referencing it, and `confidenceAvg` equal to the
exact arithmetic mean of the confidences of its detections excluding the
initiating detection (which exists and carries confidence 100), the mean
being 0 for a freshly registered person. -/
theorem c2_stats_consistent (reqs : List Request) :
    ∀ p ∈ (runRequests initialDB reqs).persons,
      p.total_detections = (detsOf (runRequests initialDB reqs).detections p.id).length ∧
      p.confidence_avg = tailMean (detsOf (runRequests initialDB reqs).detections p.id) ∧
      ∃ d0 tl, detsOf (runRequests initialDB reqs).detections p.id = d0 :: tl ∧
        d0.confidence = 100 := by
  intro p hp
  exact (runRequests_invariant reqs initialDB initialDB_invariant).2.2.2 p hp

/-- Witness for `c2_stats_consistent`: the store after one registration. -/
theorem c2_stats_consistent_witness :
    person1.total_detections
        = (detsOf (runRequests initialDB [req0]).detections person1.id).length ∧
    person1.confidence_avg
        = tailMean (detsOf (runRequests initialDB [req0]).detections person1.id) ∧
    ∃ d0 tl, detsOf (runRequests initialDB [req0]).detections person1.id = d0 :: tl ∧
      d0.confidence = 100 :=
  c2_stats_consistent [req0] person1 (List.mem_singleton.mpr rfl)

end AutoFace
